import Mathlib

/-!
Verification development for the real-time waiting-room admission subsystem
of the meet-backend repository.  The definitions below are a shallow
embedding of `app/utils/redis_utils.py` (the waiting-room store client over
Redis hashes) and `app/routers/websocket_router.py` (the Socket.IO event
handlers `join_request`, `host_join`, `admit_participant`,
`deny_participant`).

Modelling conventions:
* The Redis server state is a pair of association lists: one mapping a key
  to a hash (itself an association list from field to stored value), and
  one mapping a key to its TTL in seconds.  `hset`, `hget`, `hdel`,
  `hgetall` and `expire` are the Redis commands the source uses, with
  their sequential semantics.
* The stored value for a waiting-room field is the parsed form of the JSON
  document the source writes (`socketId`, `participantId`, `name`,
  `requestedAt`); since the source always round-trips through
  `json.dumps` and `json.loads`, we model the parsed record directly.
  `requestedAt` is stored as a string, exactly as the source stores
  `str(int(time.time() * 1000))`.
* Each call to `time.time() * 1000` is modelled as an explicit natural
  number parameter, one per call site in the source, in execution order.
* Python exceptions raised by the Redis client are modelled by boolean
  fault flags, one per Redis command of `add_to_waiting_room`; the
  enclosing `try` and `except` returning `False` is modelled by the
  function returning the state reached before the failing command
  together with `false`.
* A handler's observable behaviour is the updated Redis state plus the
  ordered list of actions it performs: `sio.emit(event, payload, room)`,
  `sio.enter_room(sid, room)` and `sio.disconnect(sid)`.  Emitting to a
  single connection is `emit` whose room string is that connection's id
  (Socket.IO places every connection in a personal room named by its id).
-/

/-- One waiting-room record, the parsed form of the JSON document written
by `add_to_waiting_room` in `redis_utils.py`. -/
structure Entry where
  socketId : String
  participantId : String
  name : String
  requestedAt : String
deriving DecidableEq, Repr

/-- Look up a key in an association list (first binding wins). -/
def lookupA {α : Type} : List (String × α) → String → Option α
  | [], _ => none
  | (k', v) :: t, k => if k' = k then some v else lookupA t k

/-- Set a key in an association list, replacing the first existing binding
or appending a new one; this is the field-update semantics of Redis
`HSET` on one field. -/
def setA {α : Type} : List (String × α) → String → α → List (String × α)
  | [], k, v => [(k, v)]
  | (k', v') :: t, k, v =>
      if k' = k then (k, v) :: t else (k', v') :: setA t k v

/-- Delete every binding of a key from an association list; this is the
semantics of Redis `HDEL` on one field. -/
def delA {α : Type} : List (String × α) → String → List (String × α)
  | [], _ => []
  | (k', v') :: t, k =>
      if k' = k then delA t k else (k', v') :: delA t k

/-- A Redis hash: fields mapped to stored waiting-room records. -/
abbrev Hash := List (String × Entry)

/-- The Redis server state used by the waiting-room client: hashes per key
and a TTL (seconds) per key. -/
structure RedisState where
  hashes : List (String × Hash)
  ttls : List (String × Nat)
deriving DecidableEq, Repr

/-- The empty Redis state. -/
def RedisState.empty : RedisState := ⟨[], []⟩

/-- Redis `HGETALL key`: the whole hash at a key, empty if the key is
absent. -/
def hgetall (st : RedisState) (key : String) : Hash :=
  (lookupA st.hashes key).getD []

/-- Redis `HGET key field`. -/
def hget (st : RedisState) (key field : String) : Option Entry :=
  lookupA (hgetall st key) field

/-- Redis `HSET key field value` (creates the key when absent). -/
def hset (st : RedisState) (key field : String) (v : Entry) : RedisState :=
  { st with hashes := setA st.hashes key (setA (hgetall st key) field v) }

/-- Redis `HDEL key field`. -/
def hdel (st : RedisState) (key field : String) : RedisState :=
  { st with hashes := setA st.hashes key (delA (hgetall st key) field) }

/-- Redis `EXPIRE key seconds`. -/
def expire (st : RedisState) (key : String) (secs : Nat) : RedisState :=
  { st with ttls := setA st.ttls key secs }

/-- The key of a meeting's waiting-room bucket, `waiting_room:` followed by
the meeting id, as in `redis_utils.py`. -/
def waitingRoomKey (meetingId : String) : String :=
  "waiting_room:" ++ meetingId

/-- `add_to_waiting_room` of `redis_utils.py`.  `hsetFails` models an
exception raised at or before the `client.hset` call (including a failed
`get_redis_client`), `expireFails` one raised by `client.expire`; the
surrounding `try` turns either into a `false` return.  `now` is the value
of `int(time.time() * 1000)` read inside this function; the source stores
it with `str(...)`. -/
def add_to_waiting_room (hsetFails expireFails : Bool) (st : RedisState)
    (meeting_id socket_id participantId name : String) (now : Nat) :
    RedisState × Bool :=
  if hsetFails then (st, false)
  else
    let key := waitingRoomKey meeting_id
    let info : Entry := ⟨socket_id, participantId, name, toString now⟩
    let st1 := hset st key socket_id info
    if expireFails then (st1, false)
    else (expire st1 key 86400, true)

/-- `remove_from_waiting_room` of `redis_utils.py`, run without
interleaving: `hget` the field, and when it is present `hdel` it and
return the parsed record, otherwise return `none`. -/
def remove_from_waiting_room (st : RedisState)
    (meeting_id socket_id : String) : RedisState × Option Entry :=
  let key := waitingRoomKey meeting_id
  match hget st key socket_id with
  | some e => (hdel st key socket_id, some e)
  | none => (st, none)

/-- `get_waiting_room_participants` of `redis_utils.py`: all stored
records of the meeting's bucket (every stored value parses, since only
`add_to_waiting_room` writes them). -/
def get_waiting_room_participants (st : RedisState)
    (meeting_id : String) : List Entry :=
  (hgetall st (waitingRoomKey meeting_id)).map Prod.snd

/-- Python truthiness of `data.get(field)` for a string field: `None` and
the empty string are falsy. -/
def truthy : Option String → Bool
  | none => false
  | some s => !(s == "")

/-- The payloads of the server-to-client events emitted by
`websocket_router.py`, one constructor per dictionary literal in the
source.  The three shapes of `waiting-room-update` are distinguished by
their `type` field: `newRequest`, `admitted` and `denied`.  Note that the
`requestedAt` of `newRequest` is an integer (a fresh clock reading in the
handler) while the `requestedAt` inside snapshot entries is the stored
string. -/
inductive Payload where
  | errorMsg (message : String)
  | joinRequestAck (socketId status : String)
  | newRequest (socketId participantId name : String) (requestedAt : Nat)
  | snapshot (participants : List Entry)
  | joinApproved (socketId participantId : String)
  | admitted (socketId participantId name : String)
  | joinDenied (socketId participantId reason : String)
  | denied (socketId participantId name : String)
deriving DecidableEq, Repr

/-- One observable action of a handler: `sio.emit(event, payload, room)`,
`sio.enter_room(sid, room)` or `sio.disconnect(sid)`. -/
inductive WsAction where
  | emit (room event : String) (payload : Payload)
  | enterRoom (sid room : String)
  | disconnect (sid : String)
deriving DecidableEq, Repr

/-- `join_request` of `websocket_router.py`.  The payload fields are the
results of `data.get(...)`; `tAdd` is the clock reading made inside
`add_to_waiting_room` and `tNotify` the one made by the handler for the
`waiting-room-update` broadcast (two separate `time.time()` calls, in
that order). -/
def join_request (sid : String) (meetingId participantId name : Option String)
    (hsetFails expireFails : Bool) (tAdd tNotify : Nat) (st : RedisState) :
    RedisState × List WsAction :=
  if !truthy meetingId || !truthy participantId || !truthy name then
    (st, [.emit sid "error" (.errorMsg "Missing required fields")])
  else
    let m := meetingId.getD ""
    let pid := participantId.getD ""
    let nm := name.getD ""
    let existing := get_waiting_room_participants st m
    let already_waiting :=
      existing.any (fun p => p.participantId == pid || p.socketId == sid)
    if already_waiting then
      (st, [.emit sid "join-request-ack" (.joinRequestAck sid "already-waiting")])
    else
      let r := add_to_waiting_room hsetFails expireFails st m sid pid nm tAdd
      if !r.2 then
        (r.1, [.emit sid "error" (.errorMsg "Failed to add to waiting room")])
      else
        (r.1,
         [.enterRoom sid ("meeting:" ++ m),
          .emit ("host:" ++ m) "waiting-room-update" (.newRequest sid pid nm tNotify),
          .emit sid "join-request-ack" (.joinRequestAck sid "waiting")])

/-- `host_join` of `websocket_router.py`: join the host and meeting rooms
and send the sender a snapshot of the current waiting-room bucket (the
snapshot projects exactly the four stored fields of each record). -/
def host_join (sid : String) (meetingId : Option String) (st : RedisState) :
    RedisState × List WsAction :=
  if !truthy meetingId then
    (st, [.emit sid "error" (.errorMsg "Meeting ID required")])
  else
    let m := meetingId.getD ""
    let participants := get_waiting_room_participants st m
    (st,
     [.enterRoom sid ("host:" ++ m),
      .enterRoom sid ("meeting:" ++ m),
      .emit sid "waiting-room-snapshot" (.snapshot participants)])

/-- `admit_participant` of `websocket_router.py`. -/
def admit_participant (sid : String) (meetingId socketId : Option String)
    (st : RedisState) : RedisState × List WsAction :=
  if !truthy meetingId || !truthy socketId then
    (st, [.emit sid "error" (.errorMsg "Meeting ID and socket ID required")])
  else
    let m := meetingId.getD ""
    let target := socketId.getD ""
    let r := remove_from_waiting_room st m target
    match r.2 with
    | none =>
        (r.1, [.emit sid "error" (.errorMsg "Participant not found in waiting room")])
    | some p =>
        (r.1,
         [.emit target "join-approved" (.joinApproved target p.participantId),
          .emit ("meeting:" ++ m) "join-approved" (.joinApproved target p.participantId),
          .emit ("host:" ++ m) "waiting-room-update"
            (.admitted target p.participantId p.name)])

/-- `deny_participant` of `websocket_router.py`. -/
def deny_participant (sid : String) (meetingId socketId : Option String)
    (st : RedisState) : RedisState × List WsAction :=
  if !truthy meetingId || !truthy socketId then
    (st, [.emit sid "error" (.errorMsg "Meeting ID and socket ID required")])
  else
    let m := meetingId.getD ""
    let target := socketId.getD ""
    let r := remove_from_waiting_room st m target
    match r.2 with
    | none =>
        (r.1,
         [.emit ("host:" ++ m) "waiting-room-update"
            (.denied target "unknown" "Unknown")])
    | some p =>
        (r.1,
         [.emit target "join-denied"
            (.joinDenied target p.participantId "Host denied your request"),
          .disconnect target,
          .emit ("host:" ++ m) "waiting-room-update"
            (.denied target p.participantId p.name)])

/-! ### Association-list lemmas -/

theorem lookupA_setA_self {α : Type} (l : List (String × α)) (k : String) (v : α) :
    lookupA (setA l k v) k = some v := by
  induction l with
  | nil => simp [setA, lookupA]
  | cons p t ih =>
      obtain ⟨k', v'⟩ := p
      by_cases h : k' = k
      · simp [setA, h, lookupA]
      · simp [setA, h, lookupA, ih]

theorem lookupA_setA_ne {α : Type} (l : List (String × α)) (k k' : String) (v : α)
    (h : k' ≠ k) : lookupA (setA l k v) k' = lookupA l k' := by
  have h' : k ≠ k' := Ne.symm h
  induction l with
  | nil => simp [setA, lookupA, h']
  | cons p t ih =>
      obtain ⟨k₀, v₀⟩ := p
      by_cases hk : k₀ = k
      · subst hk
        simp [setA, lookupA, h']
      · simp only [setA, if_neg hk, lookupA]
        by_cases hk' : k₀ = k'
        · simp [hk']
        · simp [hk', ih]

theorem lookupA_delA_self {α : Type} (l : List (String × α)) (k : String) :
    lookupA (delA l k) k = none := by
  induction l with
  | nil => simp [delA, lookupA]
  | cons p t ih =>
      obtain ⟨k', v'⟩ := p
      by_cases h : k' = k
      · simp [delA, h, ih]
      · simp [delA, h, lookupA, ih]

theorem lookupA_delA_ne {α : Type} (l : List (String × α)) (k k' : String)
    (h : k' ≠ k) : lookupA (delA l k) k' = lookupA l k' := by
  induction l with
  | nil => simp [delA]
  | cons p t ih =>
      obtain ⟨k₀, v₀⟩ := p
      by_cases hk : k₀ = k
      · subst hk
        simp [delA, lookupA, Ne.symm h, ih]
      · simp only [delA, if_neg hk, lookupA]
        by_cases hk' : k₀ = k'
        · simp [hk']
        · simp [hk', ih]

theorem lookupA_some_mem {α : Type} {l : List (String × α)} {k : String} {v : α}
    (h : lookupA l k = some v) : (k, v) ∈ l := by
  induction l with
  | nil => simp [lookupA] at h
  | cons p t ih =>
      obtain ⟨k', v'⟩ := p
      by_cases hk : k' = k
      · subst hk
        simp [lookupA] at h
        simp [h]
      · simp [lookupA, hk] at h
        exact List.mem_cons_of_mem _ (ih h)

theorem setA_of_lookupA_none {α : Type} {l : List (String × α)} {k : String}
    (h : lookupA l k = none) (v : α) : setA l k v = l ++ [(k, v)] := by
  induction l with
  | nil => simp [setA]
  | cons p t ih =>
      obtain ⟨k', v'⟩ := p
      by_cases hk : k' = k
      · simp [lookupA, hk] at h
      · simp [lookupA, hk] at h
        simp [setA, hk, ih h]

theorem mem_setA {α : Type} {l : List (String × α)} {k : String} {v : α}
    {p : String × α} (h : p ∈ setA l k v) : p = (k, v) ∨ p ∈ l := by
  induction l with
  | nil => simp [setA] at h; simp [h]
  | cons q t ih =>
      obtain ⟨k', v'⟩ := q
      by_cases hk : k' = k
      · simp [setA, hk] at h
        rcases h with h | h
        · exact Or.inl h
        · exact Or.inr (List.mem_cons_of_mem _ h)
      · simp only [setA, if_neg hk, List.mem_cons] at h
        rcases h with h | h
        · exact Or.inr (by simp [h])
        · rcases ih h with h' | h'
          · exact Or.inl h'
          · exact Or.inr (List.mem_cons_of_mem _ h')

theorem mem_delA {α : Type} {l : List (String × α)} {k : String}
    {p : String × α} (h : p ∈ delA l k) : p ∈ l := by
  induction l with
  | nil => simp [delA] at h
  | cons q t ih =>
      obtain ⟨k', v'⟩ := q
      by_cases hk : k' = k
      · simp only [delA, if_pos hk] at h
        exact List.mem_cons_of_mem _ (ih h)
      · simp only [delA, if_neg hk, List.mem_cons] at h
        rcases h with h | h
        · simp [h]
        · exact List.mem_cons_of_mem _ (ih h)

theorem keys_nodup_setA {α : Type} {l : List (String × α)} (k : String) (v : α)
    (h : (l.map Prod.fst).Nodup) : ((setA l k v).map Prod.fst).Nodup := by
  induction l with
  | nil => simp [setA]
  | cons q t ih =>
      obtain ⟨k', v'⟩ := q
      simp only [List.map_cons, List.nodup_cons] at h
      by_cases hk : k' = k
      · subst hk
        simpa [setA] using h
      · simp only [setA, if_neg hk, List.map_cons, List.nodup_cons]
        refine ⟨fun hmem => ?_, ih h.2⟩
        have := List.mem_map.mp hmem
        obtain ⟨p, hp, hfst⟩ := this
        rcases mem_setA hp with h' | h'
        · rw [h'] at hfst
          simp only [] at hfst
          exact hk hfst.symm
        · exact h.1 (List.mem_map.mpr ⟨p, h', hfst⟩)

theorem keys_nodup_delA {α : Type} {l : List (String × α)} (k : String)
    (h : (l.map Prod.fst).Nodup) : ((delA l k).map Prod.fst).Nodup := by
  induction l with
  | nil => simp [delA]
  | cons q t ih =>
      obtain ⟨k', v'⟩ := q
      simp only [List.map_cons, List.nodup_cons] at h
      by_cases hk : k' = k
      · simp only [delA, if_pos hk]
        exact ih h.2
      · simp only [delA, if_neg hk, List.map_cons, List.nodup_cons]
        refine ⟨fun hmem => ?_, ih h.2⟩
        obtain ⟨p, hp, hfst⟩ := List.mem_map.mp hmem
        exact h.1 (List.mem_map.mpr ⟨p, mem_delA hp, hfst⟩)

/-! ### Redis-state lemmas -/

theorem hgetall_hset_self (st : RedisState) (key field : String) (v : Entry) :
    hgetall (hset st key field v) key = setA (hgetall st key) field v := by
  simp [hgetall, hset, lookupA_setA_self]

theorem hgetall_hset_ne (st : RedisState) (key key' field : String) (v : Entry)
    (h : key' ≠ key) :
    hgetall (hset st key field v) key' = hgetall st key' := by
  simp [hgetall, hset, lookupA_setA_ne _ _ _ _ h]

theorem hgetall_hdel_self (st : RedisState) (key field : String) :
    hgetall (hdel st key field) key = delA (hgetall st key) field := by
  simp [hgetall, hdel, lookupA_setA_self]

theorem hgetall_hdel_ne (st : RedisState) (key key' field : String)
    (h : key' ≠ key) :
    hgetall (hdel st key field) key' = hgetall st key' := by
  simp [hgetall, hdel, lookupA_setA_ne _ _ _ _ h]

theorem hgetall_expire (st : RedisState) (key key' : String) (secs : Nat) :
    hgetall (expire st key secs) key' = hgetall st key' := by
  simp [hgetall, expire]

theorem hget_expire (st : RedisState) (key key' field : String) (secs : Nat) :
    hget (expire st key secs) key' field = hget st key' field := by
  simp [hget, hgetall_expire]

theorem hget_hset_self (st : RedisState) (key field : String) (v : Entry) :
    hget (hset st key field v) key field = some v := by
  simp [hget, hgetall_hset_self, lookupA_setA_self]

theorem hget_hdel_self (st : RedisState) (key field : String) :
    hget (hdel st key field) key field = none := by
  simp [hget, hgetall_hdel_self, lookupA_delA_self]

theorem hget_hdel_ne_field (st : RedisState) (key field field' : String)
    (h : field' ≠ field) :
    hget (hdel st key field) key field' = hget st key field' := by
  simp [hget, hgetall_hdel_self, lookupA_delA_ne _ _ _ h]

/-! ### Well-formedness of the store

Fields of every waiting-room hash are pairwise distinct (an invariant of
Redis hashes themselves), and each stored record's `socketId` equals the
field it is stored under (an invariant of `add_to_waiting_room`, which
always writes the record under its own `socketId`). -/

/-- Well-formed hash: distinct fields, and each record stored under its
own socket id. -/
def WFhash (h : Hash) : Prop :=
  (h.map Prod.fst).Nodup ∧ ∀ p ∈ h, (p.2).socketId = p.1

/-- Well-formed Redis state: every hash is well-formed. -/
def WF (st : RedisState) : Prop := ∀ key, WFhash (hgetall st key)

theorem WFhash_setA {h : Hash} (hwf : WFhash h) {field : String} {v : Entry}
    (hv : v.socketId = field) : WFhash (setA h field v) := by
  constructor
  · exact keys_nodup_setA field v hwf.1
  · intro p hp
    rcases mem_setA hp with h' | h'
    · rw [h']; exact hv
    · exact hwf.2 p h'

theorem WFhash_delA {h : Hash} (hwf : WFhash h) (field : String) :
    WFhash (delA h field) := by
  constructor
  · exact keys_nodup_delA field hwf.1
  · intro p hp
    exact hwf.2 p (mem_delA hp)

theorem WF_hset {st : RedisState} (hwf : WF st) (key field : String)
    {v : Entry} (hv : v.socketId = field) : WF (hset st key field v) := by
  intro k
  by_cases hk : k = key
  · subst hk
    rw [hgetall_hset_self]
    exact WFhash_setA (hwf k) hv
  · rw [hgetall_hset_ne _ _ _ _ _ hk]
    exact hwf k

theorem WF_hdel {st : RedisState} (hwf : WF st) (key field : String) :
    WF (hdel st key field) := by
  intro k
  by_cases hk : k = key
  · subst hk
    rw [hgetall_hdel_self]
    exact WFhash_delA (hwf k) field
  · rw [hgetall_hdel_ne _ _ _ _ hk]
    exact hwf k

theorem WF_expire {st : RedisState} (hwf : WF st) (key : String) (secs : Nat) :
    WF (expire st key secs) := by
  intro k
  rw [hgetall_expire]
  exact hwf k

theorem WF_empty : WF RedisState.empty := by
  intro k
  constructor <;> simp [hgetall, RedisState.empty, lookupA]

/-! ### Handler branch lemmas -/

theorem join_request_success (st : RedisState) (sid m pid nm : String)
    (tAdd tNotify : Nat)
    (hm : m ≠ "") (hp : pid ≠ "") (hn : nm ≠ "")
    (hfresh : (get_waiting_room_participants st m).any
        (fun p => p.participantId == pid || p.socketId == sid) = false) :
    join_request sid (some m) (some pid) (some nm) false false tAdd tNotify st
      = (expire (hset st (waitingRoomKey m) sid ⟨sid, pid, nm, toString tAdd⟩)
           (waitingRoomKey m) 86400,
         [.enterRoom sid ("meeting:" ++ m),
          .emit ("host:" ++ m) "waiting-room-update" (.newRequest sid pid nm tNotify),
          .emit sid "join-request-ack" (.joinRequestAck sid "waiting")]) := by
  simp [join_request, truthy, hm, hp, hn, hfresh, add_to_waiting_room]

theorem join_request_already (st : RedisState) (sid m pid nm : String)
    (f1 f2 : Bool) (tAdd tNotify : Nat)
    (hm : m ≠ "") (hp : pid ≠ "") (hn : nm ≠ "")
    (hdup : (get_waiting_room_participants st m).any
        (fun p => p.participantId == pid || p.socketId == sid) = true) :
    join_request sid (some m) (some pid) (some nm) f1 f2 tAdd tNotify st
      = (st, [.emit sid "join-request-ack" (.joinRequestAck sid "already-waiting")]) := by
  simp [join_request, truthy, hm, hp, hn, hdup]

theorem WF_add_to_waiting_room (f1 f2 : Bool) (st : RedisState)
    (m sid pid nm : String) (t : Nat) (hwf : WF st) :
    WF (add_to_waiting_room f1 f2 st m sid pid nm t).1 := by
  unfold add_to_waiting_room
  dsimp only
  split
  · exact hwf
  · split
    · exact WF_hset hwf _ _ rfl
    · show WF (expire (hset st (waitingRoomKey m) sid
          ⟨sid, pid, nm, toString t⟩) (waitingRoomKey m) 86400)
      apply WF_expire
      apply WF_hset hwf
      rfl

theorem WF_join_request (sid : String) (mi pi ni : Option String)
    (f1 f2 : Bool) (t1 t2 : Nat) {st : RedisState} (hwf : WF st) :
    WF (join_request sid mi pi ni f1 f2 t1 t2 st).1 := by
  unfold join_request
  dsimp only
  split
  · exact hwf
  · split
    · exact hwf
    · split
      · exact WF_add_to_waiting_room _ _ _ _ _ _ _ _ hwf
      · exact WF_add_to_waiting_room _ _ _ _ _ _ _ _ hwf

theorem WF_host_join (sid : String) (mi : Option String) {st : RedisState}
    (hwf : WF st) : WF (host_join sid mi st).1 := by
  unfold host_join
  dsimp only
  split <;> exact hwf

theorem WF_remove_from_waiting_room (st : RedisState) (m c : String)
    (hwf : WF st) : WF (remove_from_waiting_room st m c).1 := by
  unfold remove_from_waiting_room
  dsimp only
  split
  · exact WF_hdel hwf _ _
  · exact hwf

theorem WF_admit_participant (sid : String) (mi si : Option String)
    {st : RedisState} (hwf : WF st) :
    WF (admit_participant sid mi si st).1 := by
  unfold admit_participant
  dsimp only
  split
  · exact hwf
  · split
    · exact WF_remove_from_waiting_room _ _ _ hwf
    · exact WF_remove_from_waiting_room _ _ _ hwf

theorem WF_deny_participant (sid : String) (mi si : Option String)
    {st : RedisState} (hwf : WF st) :
    WF (deny_participant sid mi si st).1 := by
  unfold deny_participant
  dsimp only
  split
  · exact hwf
  · split
    · exact WF_remove_from_waiting_room _ _ _ hwf
    · exact WF_remove_from_waiting_room _ _ _ hwf

/-! ### Uniqueness per connection -/

/-- Number of listed entries whose `socketId` is a given connection id. -/
def countConn (l : List Entry) (c : String) : Nat :=
  l.countP (fun e => e.socketId == c)

theorem countConn_le_one_of_WFhash {h : Hash} (hwf : WFhash h) (c : String) :
    countConn (h.map Prod.snd) c ≤ 1 := by
  induction h with
  | nil => simp [countConn]
  | cons p t ih =>
      obtain ⟨f, e⟩ := p
      obtain ⟨hnd, hcons⟩ := hwf
      simp only [List.map_cons, List.nodup_cons] at hnd
      have hwt : WFhash t := ⟨hnd.2, fun q hq => hcons q (List.mem_cons_of_mem _ hq)⟩
      have hef : e.socketId = f := hcons (f, e) (List.mem_cons_self _ _)
      by_cases hc : e.socketId = c
      · have hzero : (t.map Prod.snd).countP (fun e => e.socketId == c) = 0 := by
          rw [List.countP_eq_zero]
          intro a ha
          obtain ⟨q, hq, hqa⟩ := List.mem_map.mp ha
          have hids : a.socketId = q.1 := by
            rw [← hqa]
            exact hcons q (List.mem_cons_of_mem _ hq)
          have hne : q.1 ≠ f := fun hh =>
            hnd.1 (List.mem_map.mpr ⟨q, hq, hh⟩)
          simp only [beq_iff_eq]
          intro hac
          exact hne (by rw [← hids, hac, ← hc, hef])
        rw [List.map_cons, countConn, List.countP_cons, hzero]
        simp [hc]
      · have hcons' : ((f, e) :: t).map Prod.snd = e :: t.map Prod.snd := rfl
        rw [hcons', countConn, List.countP_cons]
        have he : (e.socketId == c) = false := by simp [hc]
        rw [he]
        simpa [countConn] using ih hwt

theorem countConn_le_one_of_WF {st : RedisState} (hwf : WF st)
    (m c : String) :
    countConn (get_waiting_room_participants st m) c ≤ 1 :=
  countConn_le_one_of_WFhash (hwf (waitingRoomKey m)) c

/-! ### Claim theorems -/

/-- C1: at most one WaitingEntry exists per (meetingId, connectionId)
pair in every well-formed store, every handler preserves this, a
successful join-request from connection `sid` leaves exactly one entry
with that connection id in `get_waiting_room_participants`, and a second
join-request from the same connection (or one with the same
participantId from any connection) is acknowledged with status
already-waiting and leaves the store untouched. -/
theorem C1_waiting_room_entry_uniqueness
    (st : RedisState) (sid m pid nm : String) (tAdd tNotify : Nat)
    (hwf : WF st) (hm : m ≠ "") (hp : pid ≠ "") (hn : nm ≠ "")
    (hfresh : ∀ p ∈ get_waiting_room_participants st m,
      p.participantId ≠ pid ∧ p.socketId ≠ sid) :
    (∀ s m' c, WF s → countConn (get_waiting_room_participants s m') c ≤ 1)
    ∧ (∀ s, WF s → ∀ (sid' : String) (mi pi ni si : Option String)
        (f1 f2 : Bool) (t1 t2 : Nat),
        WF (join_request sid' mi pi ni f1 f2 t1 t2 s).1
        ∧ WF (host_join sid' mi s).1
        ∧ WF (admit_participant sid' mi si s).1
        ∧ WF (deny_participant sid' mi si s).1)
    ∧ (join_request sid (some m) (some pid) (some nm) false false tAdd tNotify st).2
        = [.enterRoom sid ("meeting:" ++ m),
           .emit ("host:" ++ m) "waiting-room-update" (.newRequest sid pid nm tNotify),
           .emit sid "join-request-ack" (.joinRequestAck sid "waiting")]
    ∧ countConn (get_waiting_room_participants
        (join_request sid (some m) (some pid) (some nm) false false tAdd tNotify st).1 m) sid = 1
    ∧ (∀ (pid2 nm2 : String) (f1 f2 : Bool) (t1 t2 : Nat), pid2 ≠ "" → nm2 ≠ "" →
        join_request sid (some m) (some pid2) (some nm2) f1 f2 t1 t2
            (join_request sid (some m) (some pid) (some nm) false false tAdd tNotify st).1
          = ((join_request sid (some m) (some pid) (some nm) false false tAdd tNotify st).1,
             [.emit sid "join-request-ack" (.joinRequestAck sid "already-waiting")]))
    ∧ (∀ (sid2 nm2 : String) (f1 f2 : Bool) (t1 t2 : Nat), nm2 ≠ "" →
        join_request sid2 (some m) (some pid) (some nm2) f1 f2 t1 t2
            (join_request sid (some m) (some pid) (some nm) false false tAdd tNotify st).1
          = ((join_request sid (some m) (some pid) (some nm) false false tAdd tNotify st).1,
             [.emit sid2 "join-request-ack" (.joinRequestAck sid2 "already-waiting")])) := by
  have hfreshB : (get_waiting_room_participants st m).any
      (fun p => p.participantId == pid || p.socketId == sid) = false := by
    rw [List.any_eq_false]
    intro p hp'
    simp only [Bool.or_eq_true, beq_iff_eq, not_or]
    exact ⟨(hfresh p hp').1, (hfresh p hp').2⟩
  have hrun := join_request_success st sid m pid nm tAdd tNotify hm hp hn hfreshB
  have hlook : lookupA (hgetall st (waitingRoomKey m)) sid = none := by
    cases hv : lookupA (hgetall st (waitingRoomKey m)) sid with
    | none => rfl
    | some v =>
        exfalso
        have hmem : (sid, v) ∈ hgetall st (waitingRoomKey m) := lookupA_some_mem hv
        have hvs : v.socketId = sid := (hwf (waitingRoomKey m)).2 (sid, v) hmem
        have hvmem : v ∈ get_waiting_room_participants st m :=
          List.mem_map.mpr ⟨(sid, v), hmem, rfl⟩
        exact (hfresh v hvmem).2 hvs
  have happend : hgetall
      (join_request sid (some m) (some pid) (some nm) false false tAdd tNotify st).1
      (waitingRoomKey m)
      = hgetall st (waitingRoomKey m) ++ [(sid, ⟨sid, pid, nm, toString tAdd⟩)] := by
    rw [hrun]
    dsimp only
    rw [hgetall_expire, hgetall_hset_self, setA_of_lookupA_none hlook]
  have hparts : get_waiting_room_participants
      (join_request sid (some m) (some pid) (some nm) false false tAdd tNotify st).1 m
      = get_waiting_room_participants st m ++ [⟨sid, pid, nm, toString tAdd⟩] := by
    rw [get_waiting_room_participants, happend, List.map_append]
    rfl
  have hcount0 : countConn (get_waiting_room_participants st m) sid = 0 := by
    rw [countConn, List.countP_eq_zero]
    intro p hp'
    simp only [beq_iff_eq]
    exact (hfresh p hp').2
  have hmem1 : (⟨sid, pid, nm, toString tAdd⟩ : Entry)
      ∈ get_waiting_room_participants
        (join_request sid (some m) (some pid) (some nm) false false tAdd tNotify st).1 m := by
    rw [hparts]
    exact List.mem_append_right _ (List.mem_singleton.mpr rfl)
  refine ⟨fun s m' c hs => countConn_le_one_of_WF hs m' c,
    fun s hs sid' mi pi ni si f1 f2 t1 t2 =>
      ⟨WF_join_request sid' mi pi ni f1 f2 t1 t2 hs, WF_host_join sid' mi hs,
       WF_admit_participant sid' mi si hs, WF_deny_participant sid' mi si hs⟩,
    by rw [hrun], ?_, ?_, ?_⟩
  · rw [hparts, countConn, List.countP_append, ← countConn, hcount0]
    simp [countConn]
  · intro pid2 nm2 f1 f2 t1 t2 hp2 hn2
    apply join_request_already _ _ _ _ _ f1 f2 t1 t2 hm hp2 hn2
    rw [List.any_eq_true]
    exact ⟨_, hmem1, by simp⟩
  · intro sid2 nm2 f1 f2 t1 t2 hn2
    apply join_request_already _ _ _ _ _ f1 f2 t1 t2 hm hp hn2
    rw [List.any_eq_true]
    exact ⟨_, hmem1, by simp⟩

theorem admit_participant_found (st : RedisState) (sid m c : String) (E : Entry)
    (hm : m ≠ "") (hc : c ≠ "")
    (hE : hget st (waitingRoomKey m) c = some E) :
    admit_participant sid (some m) (some c) st
      = (hdel st (waitingRoomKey m) c,
         [.emit c "join-approved" (.joinApproved c E.participantId),
          .emit ("meeting:" ++ m) "join-approved" (.joinApproved c E.participantId),
          .emit ("host:" ++ m) "waiting-room-update"
            (.admitted c E.participantId E.name)]) := by
  simp [admit_participant, truthy, hm, hc, remove_from_waiting_room, hE]

theorem admit_participant_absent (st : RedisState) (sid m c : String)
    (hm : m ≠ "") (hc : c ≠ "")
    (hE : hget st (waitingRoomKey m) c = none) :
    admit_participant sid (some m) (some c) st
      = (st, [.emit sid "error" (.errorMsg "Participant not found in waiting room")]) := by
  simp [admit_participant, truthy, hm, hc, remove_from_waiting_room, hE]

theorem deny_participant_found (st : RedisState) (sid m c : String) (E : Entry)
    (hm : m ≠ "") (hc : c ≠ "")
    (hE : hget st (waitingRoomKey m) c = some E) :
    deny_participant sid (some m) (some c) st
      = (hdel st (waitingRoomKey m) c,
         [.emit c "join-denied" (.joinDenied c E.participantId "Host denied your request"),
          .disconnect c,
          .emit ("host:" ++ m) "waiting-room-update"
            (.denied c E.participantId E.name)]) := by
  simp [deny_participant, truthy, hm, hc, remove_from_waiting_room, hE]

theorem deny_participant_absent (st : RedisState) (sid m c : String)
    (hm : m ≠ "") (hc : c ≠ "")
    (hE : hget st (waitingRoomKey m) c = none) :
    deny_participant sid (some m) (some c) st
      = (st, [.emit ("host:" ++ m) "waiting-room-update"
          (.denied c "unknown" "Unknown")]) := by
  simp [deny_participant, truthy, hm, hc, remove_from_waiting_room, hE]

/-- Number of `emit` actions in a list targeting a given room with a given
event name. -/
def emitCount (acts : List WsAction) (room event : String) : Nat :=
  acts.countP (fun a => match a with
    | .emit r ev _ => r == room && ev == event
    | _ => false)

/-- C2: admitting a pending entry removes exactly that entry from the
store, emits exactly one join-approved to the entry's connection carrying
its connectionId and participantId, one fallback broadcast of the same
event to the meeting room, no join-approved to any other destination, and
one admitted waiting-room-update to the host room. -/
theorem C2_admit_removes_and_notifies
    (st : RedisState) (sid m c : String) (E : Entry)
    (hm : m ≠ "") (hc : c ≠ "") (hcm : c ≠ "meeting:" ++ m)
    (hE : hget st (waitingRoomKey m) c = some E) :
    hget (admit_participant sid (some m) (some c) st).1 (waitingRoomKey m) c = none
    ∧ (∀ f, f ≠ c →
        hget (admit_participant sid (some m) (some c) st).1 (waitingRoomKey m) f
          = hget st (waitingRoomKey m) f)
    ∧ (∀ k, k ≠ waitingRoomKey m →
        hgetall (admit_participant sid (some m) (some c) st).1 k = hgetall st k)
    ∧ (admit_participant sid (some m) (some c) st).2
        = [.emit c "join-approved" (.joinApproved c E.participantId),
           .emit ("meeting:" ++ m) "join-approved" (.joinApproved c E.participantId),
           .emit ("host:" ++ m) "waiting-room-update"
             (.admitted c E.participantId E.name)]
    ∧ emitCount (admit_participant sid (some m) (some c) st).2 c "join-approved" = 1
    ∧ (∀ room, room ≠ c → room ≠ "meeting:" ++ m →
        emitCount (admit_participant sid (some m) (some c) st).2 room "join-approved" = 0)
    ∧ emitCount (admit_participant sid (some m) (some c) st).2
        ("meeting:" ++ m) "join-approved" = 1
    ∧ emitCount (admit_participant sid (some m) (some c) st).2
        ("host:" ++ m) "waiting-room-update" = 1 := by
  have hrun := admit_participant_found st sid m c E hm hc hE
  rw [hrun]
  refine ⟨hget_hdel_self st (waitingRoomKey m) c,
    fun f hf => hget_hdel_ne_field st (waitingRoomKey m) c f hf,
    fun k hk => hgetall_hdel_ne st (waitingRoomKey m) k c hk, rfl, ?_, ?_, ?_, ?_⟩
  · simp [emitCount, List.countP_cons, Ne.symm hcm]
  · intro room h1 h2
    simp [emitCount, List.countP_cons, Ne.symm h1, Ne.symm h2]
  · simp [emitCount, List.countP_cons, hcm]
  · simp [emitCount, List.countP_cons]

/-- C3: denying a pending entry removes it from the store, emits exactly
one join-denied (with the entry's participantId and a reason) to the
entry's connection and to no other destination, then forcibly
disconnects that connection, and broadcasts a denied waiting-room-update
with the entry's participantId and name to the host room. -/
theorem C3_deny_removes_notifies_disconnects
    (st : RedisState) (sid m c : String) (E : Entry)
    (hm : m ≠ "") (hc : c ≠ "")
    (hE : hget st (waitingRoomKey m) c = some E) :
    hget (deny_participant sid (some m) (some c) st).1 (waitingRoomKey m) c = none
    ∧ (∀ f, f ≠ c →
        hget (deny_participant sid (some m) (some c) st).1 (waitingRoomKey m) f
          = hget st (waitingRoomKey m) f)
    ∧ (∀ k, k ≠ waitingRoomKey m →
        hgetall (deny_participant sid (some m) (some c) st).1 k = hgetall st k)
    ∧ (deny_participant sid (some m) (some c) st).2
        = [.emit c "join-denied" (.joinDenied c E.participantId "Host denied your request"),
           .disconnect c,
           .emit ("host:" ++ m) "waiting-room-update" (.denied c E.participantId E.name)]
    ∧ emitCount (deny_participant sid (some m) (some c) st).2 c "join-denied" = 1
    ∧ (∀ room, room ≠ c →
        emitCount (deny_participant sid (some m) (some c) st).2 room "join-denied" = 0)
    ∧ WsAction.disconnect c ∈ (deny_participant sid (some m) (some c) st).2
    ∧ emitCount (deny_participant sid (some m) (some c) st).2
        ("host:" ++ m) "waiting-room-update" = 1 := by
  have hrun := deny_participant_found st sid m c E hm hc hE
  rw [hrun]
  refine ⟨hget_hdel_self st (waitingRoomKey m) c,
    fun f hf => hget_hdel_ne_field st (waitingRoomKey m) c f hf,
    fun k hk => hgetall_hdel_ne st (waitingRoomKey m) k c hk, rfl, ?_, ?_, ?_, ?_⟩
  · simp [emitCount, List.countP_cons]
  · intro room h1
    simp [emitCount, List.countP_cons, Ne.symm h1]
  · simp
  · simp [emitCount, List.countP_cons]

/-- C4: when admit-participant or deny-participant targets a connection
with no entry, the store is unchanged; admit emits a single error to the
requesting connection and nothing else, deny emits no error and instead
broadcasts a denied waiting-room-update with participantId unknown to
the host room; denying the same connection twice yields one real denial
followed by one unknown notice. -/
theorem C4_not_found_admit_deny (m c sid : String) (hm : m ≠ "") (hc : c ≠ "") :
    (∀ st, hget st (waitingRoomKey m) c = none →
      admit_participant sid (some m) (some c) st
        = (st, [.emit sid "error" (.errorMsg "Participant not found in waiting room")])
      ∧ deny_participant sid (some m) (some c) st
        = (st, [.emit ("host:" ++ m) "waiting-room-update"
            (.denied c "unknown" "Unknown")]))
    ∧ (∀ st E, hget st (waitingRoomKey m) c = some E →
        deny_participant sid (some m) (some c) st
          = (hdel st (waitingRoomKey m) c,
             [.emit c "join-denied" (.joinDenied c E.participantId "Host denied your request"),
              .disconnect c,
              .emit ("host:" ++ m) "waiting-room-update" (.denied c E.participantId E.name)])
        ∧ deny_participant sid (some m) (some c) (hdel st (waitingRoomKey m) c)
          = (hdel st (waitingRoomKey m) c,
             [.emit ("host:" ++ m) "waiting-room-update"
               (.denied c "unknown" "Unknown")])) := by
  constructor
  · intro st habs
    exact ⟨admit_participant_absent st sid m c hm hc habs,
      deny_participant_absent st sid m c hm hc habs⟩
  · intro st E hE
    refine ⟨deny_participant_found st sid m c E hm hc hE, ?_⟩
    exact deny_participant_absent _ sid m c hm hc (hget_hdel_self st (waitingRoomKey m) c)

/-- C5: host-join adds the sender to the host room and the meeting room
and sends, to the sender only, a single waiting-room-snapshot whose
entries are exactly what get_waiting_room_participants returns at that
moment. -/
theorem C5_host_join_snapshot (st : RedisState) (sid m : String) (hm : m ≠ "") :
    host_join sid (some m) st
      = (st, [.enterRoom sid ("host:" ++ m),
              .enterRoom sid ("meeting:" ++ m),
              .emit sid "waiting-room-snapshot"
                (.snapshot (get_waiting_room_participants st m))])
    ∧ emitCount (host_join sid (some m) st).2 sid "waiting-room-snapshot" = 1
    ∧ (∀ e : Entry, ∀ l : List Entry,
        (host_join sid (some m) st).2
            = [.enterRoom sid ("host:" ++ m), .enterRoom sid ("meeting:" ++ m),
               .emit sid "waiting-room-snapshot" (.snapshot l)] →
        (e ∈ l ↔ e ∈ get_waiting_room_participants st m)) := by
  have hrun : host_join sid (some m) st
      = (st, [.enterRoom sid ("host:" ++ m),
              .enterRoom sid ("meeting:" ++ m),
              .emit sid "waiting-room-snapshot"
                (.snapshot (get_waiting_room_participants st m))]) := by
    simp [host_join, truthy, hm]
  refine ⟨hrun, ?_, ?_⟩
  · rw [hrun]
    simp [emitCount, List.countP_cons]
  · intro e l hl
    rw [hrun] at hl
    simp only [List.cons.injEq, WsAction.emit.injEq, Payload.snapshot.injEq, and_true,
      true_and] at hl
    rw [hl]

/-- C6: for each of the four inbound events, a payload with a missing
(falsy) required field produces exactly one error emit to the sender and
nothing else: the store is untouched, no room is joined, no other
connection receives anything, and the handler returns normally. -/
theorem C6_missing_field_single_error
    (sid : String) (mi pi ni si : Option String) (f1 f2 : Bool)
    (t1 t2 : Nat) (st : RedisState) :
    ((truthy mi && truthy pi && truthy ni) = false →
      join_request sid mi pi ni f1 f2 t1 t2 st
        = (st, [.emit sid "error" (.errorMsg "Missing required fields")]))
    ∧ (truthy mi = false →
      host_join sid mi st
        = (st, [.emit sid "error" (.errorMsg "Meeting ID required")]))
    ∧ ((truthy mi && truthy si) = false →
      admit_participant sid mi si st
        = (st, [.emit sid "error" (.errorMsg "Meeting ID and socket ID required")]))
    ∧ ((truthy mi && truthy si) = false →
      deny_participant sid mi si st
        = (st, [.emit sid "error" (.errorMsg "Meeting ID and socket ID required")])) := by
  refine ⟨fun h => ?_, fun h => ?_, fun h => ?_, fun h => ?_⟩
  · have hcond : (!truthy mi || !truthy pi || !truthy ni) = true := by
      cases hmi : truthy mi <;> cases hpi : truthy pi <;> cases hni : truthy ni <;>
        simp_all
    simp [join_request, hcond]
  · simp [host_join, h]
  · have hcond : (!truthy mi || !truthy si) = true := by
      cases hmi : truthy mi <;> cases hsi : truthy si <;> simp_all
    simp [admit_participant, hcond]
  · have hcond : (!truthy mi || !truthy si) = true := by
      cases hmi : truthy mi <;> cases hsi : truthy si <;> simp_all
    simp [deny_participant, hcond]

theorem join_request_success_parts
    (st : RedisState) (sid m pid nm : String) (tAdd tNotify : Nat)
    (hwf : WF st) (hm : m ≠ "") (hp : pid ≠ "") (hn : nm ≠ "")
    (hfresh : ∀ p ∈ get_waiting_room_participants st m,
      p.participantId ≠ pid ∧ p.socketId ≠ sid) :
    get_waiting_room_participants
      (join_request sid (some m) (some pid) (some nm) false false tAdd tNotify st).1 m
      = get_waiting_room_participants st m ++ [⟨sid, pid, nm, toString tAdd⟩] := by
  have hfreshB : (get_waiting_room_participants st m).any
      (fun p => p.participantId == pid || p.socketId == sid) = false := by
    rw [List.any_eq_false]
    intro p hp'
    simp only [Bool.or_eq_true, beq_iff_eq, not_or]
    exact ⟨(hfresh p hp').1, (hfresh p hp').2⟩
  have hrun := join_request_success st sid m pid nm tAdd tNotify hm hp hn hfreshB
  have hlook : lookupA (hgetall st (waitingRoomKey m)) sid = none := by
    cases hv : lookupA (hgetall st (waitingRoomKey m)) sid with
    | none => rfl
    | some v =>
        exfalso
        have hmem : (sid, v) ∈ hgetall st (waitingRoomKey m) := lookupA_some_mem hv
        have hvs : v.socketId = sid := (hwf (waitingRoomKey m)).2 (sid, v) hmem
        have hvmem : v ∈ get_waiting_room_participants st m :=
          List.mem_map.mpr ⟨(sid, v), hmem, rfl⟩
        exact (hfresh v hvmem).2 hvs
  rw [get_waiting_room_participants, hrun]
  dsimp only
  rw [hgetall_expire, hgetall_hset_self, setA_of_lookupA_none hlook, List.map_append]
  rfl

/-- C7 counterexample: with the clock at 5 ms when `add_to_waiting_room`
reads it and at 7 ms when the handler builds the host broadcast, the
stored entry carries requestedAt "5" while the new-request
waiting-room-update broadcast to the host room carries 7; no broadcast
carries the stored insertion-time value. -/
theorem C7_counterexample :
    hget (join_request "c1" (some "m1") (some "p1") (some "Alice") false false 5 7
        RedisState.empty).1 (waitingRoomKey "m1") "c1"
      = some ⟨"c1", "p1", "Alice", "5"⟩
    ∧ (join_request "c1" (some "m1") (some "p1") (some "Alice") false false 5 7
        RedisState.empty).2
      = [.enterRoom "c1" "meeting:m1",
         .emit "host:m1" "waiting-room-update" (.newRequest "c1" "p1" "Alice" 7),
         .emit "c1" "join-request-ack" (.joinRequestAck "c1" "waiting")]
    ∧ WsAction.emit "host:m1" "waiting-room-update" (.newRequest "c1" "p1" "Alice" 5)
        ∉ (join_request "c1" (some "m1") (some "p1") (some "Alice") false false 5 7
            RedisState.empty).2 := by
  refine ⟨by decide, rfl, by decide⟩

/-- C7 amended: the stored entry's requestedAt is the insertion-time
clock reading (in string form, as the source serialises it), and it is
this stored value that host-join snapshots carry; the new-request
broadcast to the host room instead carries a second, later clock reading
taken by the handler after insertion. -/
theorem C7_requestedAt_amended
    (st : RedisState) (sid m pid nm hostSid : String) (tAdd tNotify : Nat)
    (hwf : WF st) (hm : m ≠ "") (hp : pid ≠ "") (hn : nm ≠ "")
    (hfresh : ∀ p ∈ get_waiting_room_participants st m,
      p.participantId ≠ pid ∧ p.socketId ≠ sid) :
    hget (join_request sid (some m) (some pid) (some nm) false false tAdd tNotify st).1
        (waitingRoomKey m) sid = some ⟨sid, pid, nm, toString tAdd⟩
    ∧ host_join hostSid (some m)
        (join_request sid (some m) (some pid) (some nm) false false tAdd tNotify st).1
      = ((join_request sid (some m) (some pid) (some nm) false false tAdd tNotify st).1,
         [.enterRoom hostSid ("host:" ++ m),
          .enterRoom hostSid ("meeting:" ++ m),
          .emit hostSid "waiting-room-snapshot"
            (.snapshot (get_waiting_room_participants st m
              ++ [⟨sid, pid, nm, toString tAdd⟩]))])
    ∧ (join_request sid (some m) (some pid) (some nm) false false tAdd tNotify st).2
      = [.enterRoom sid ("meeting:" ++ m),
         .emit ("host:" ++ m) "waiting-room-update" (.newRequest sid pid nm tNotify),
         .emit sid "join-request-ack" (.joinRequestAck sid "waiting")] := by
  have hfreshB : (get_waiting_room_participants st m).any
      (fun p => p.participantId == pid || p.socketId == sid) = false := by
    rw [List.any_eq_false]
    intro p hp'
    simp only [Bool.or_eq_true, beq_iff_eq, not_or]
    exact ⟨(hfresh p hp').1, (hfresh p hp').2⟩
  have hrun := join_request_success st sid m pid nm tAdd tNotify hm hp hn hfreshB
  have hparts := join_request_success_parts st sid m pid nm tAdd tNotify hwf hm hp hn hfresh
  refine ⟨?_, ?_, by rw [hrun]⟩
  · rw [hrun]
    dsimp only
    rw [hget_expire, hget_hset_self]
  · simp [host_join, truthy, hm, hparts]

/-- C9: when the `hset` write succeeds but the 24-hour TTL refresh
(`expire`) raises, `add_to_waiting_room` returns false even though the
entry has been written, so the join-request handler reports "Failed to
add to waiting room" to a participant who is in fact in the waiting
room. -/
theorem C9_insert_not_atomic_on_expire_failure
    (st : RedisState) (sid m pid nm : String) (tAdd tNotify : Nat)
    (hm : m ≠ "") (hp : pid ≠ "") (hn : nm ≠ "")
    (hfresh : (get_waiting_room_participants st m).any
      (fun p => p.participantId == pid || p.socketId == sid) = false) :
    add_to_waiting_room false true st m sid pid nm tAdd
      = (hset st (waitingRoomKey m) sid ⟨sid, pid, nm, toString tAdd⟩, false)
    ∧ hget (add_to_waiting_room false true st m sid pid nm tAdd).1
        (waitingRoomKey m) sid = some ⟨sid, pid, nm, toString tAdd⟩
    ∧ join_request sid (some m) (some pid) (some nm) false true tAdd tNotify st
      = (hset st (waitingRoomKey m) sid ⟨sid, pid, nm, toString tAdd⟩,
         [.emit sid "error" (.errorMsg "Failed to add to waiting room")])
    ∧ hget (join_request sid (some m) (some pid) (some nm) false true tAdd tNotify st).1
        (waitingRoomKey m) sid = some ⟨sid, pid, nm, toString tAdd⟩ := by
  have hadd : add_to_waiting_room false true st m sid pid nm tAdd
      = (hset st (waitingRoomKey m) sid ⟨sid, pid, nm, toString tAdd⟩, false) := by
    simp [add_to_waiting_room]
  have hjoin : join_request sid (some m) (some pid) (some nm) false true tAdd tNotify st
      = (hset st (waitingRoomKey m) sid ⟨sid, pid, nm, toString tAdd⟩,
         [.emit sid "error" (.errorMsg "Failed to add to waiting room")]) := by
    simp [join_request, truthy, hm, hp, hn, hfresh, hadd]
  refine ⟨hadd, ?_, hjoin, ?_⟩
  · rw [hadd]
    exact hget_hset_self st (waitingRoomKey m) sid _
  · rw [hjoin]
    exact hget_hset_self st (waitingRoomKey m) sid _

/-- C10: required-field validation rejects empty strings exactly like
missing keys: a join-request with an empty meetingId, participantId or
name, or an admit-participant or deny-participant with an empty
meetingId or socketId, produces the same single error emit to the
sender as the corresponding missing key, with no store change and no
room join. -/
theorem C10_empty_string_fields_rejected
    (sid : String) (mi pi ni si : Option String) (f1 f2 : Bool)
    (t1 t2 : Nat) (st : RedisState) :
    (join_request sid (some "") pi ni f1 f2 t1 t2 st
        = (st, [.emit sid "error" (.errorMsg "Missing required fields")])
      ∧ join_request sid (some "") pi ni f1 f2 t1 t2 st
        = join_request sid none pi ni f1 f2 t1 t2 st)
    ∧ (join_request sid mi (some "") ni f1 f2 t1 t2 st
        = (st, [.emit sid "error" (.errorMsg "Missing required fields")])
      ∧ join_request sid mi (some "") ni f1 f2 t1 t2 st
        = join_request sid mi none ni f1 f2 t1 t2 st)
    ∧ (join_request sid mi pi (some "") f1 f2 t1 t2 st
        = (st, [.emit sid "error" (.errorMsg "Missing required fields")])
      ∧ join_request sid mi pi (some "") f1 f2 t1 t2 st
        = join_request sid mi pi none f1 f2 t1 t2 st)
    ∧ (admit_participant sid (some "") si st
        = (st, [.emit sid "error" (.errorMsg "Meeting ID and socket ID required")])
      ∧ admit_participant sid (some "") si st = admit_participant sid none si st)
    ∧ (admit_participant sid mi (some "") st
        = (st, [.emit sid "error" (.errorMsg "Meeting ID and socket ID required")])
      ∧ admit_participant sid mi (some "") st = admit_participant sid mi none st)
    ∧ (deny_participant sid (some "") si st
        = (st, [.emit sid "error" (.errorMsg "Meeting ID and socket ID required")])
      ∧ deny_participant sid (some "") si st = deny_participant sid none si st)
    ∧ (deny_participant sid mi (some "") st
        = (st, [.emit sid "error" (.errorMsg "Meeting ID and socket ID required")])
      ∧ deny_participant sid mi (some "") st = deny_participant sid mi none st) := by
  refine ⟨⟨?_, ?_⟩, ⟨?_, ?_⟩, ⟨?_, ?_⟩, ⟨?_, ?_⟩, ⟨?_, ?_⟩, ⟨?_, ?_⟩, ⟨?_, ?_⟩⟩ <;>
    simp [join_request, admit_participant, deny_participant, truthy]

/-! ### Step model of remove_from_waiting_room

In the source, `remove_from_waiting_room` issues two separate Redis
commands: `client.hget` and then `client.hdel`.  To reason about
concurrent executions each command is one atomic step, and a scheduler
interleaves the steps of two in-flight executions. -/

/-- Program counter of one in-flight `remove_from_waiting_room`
execution: about to issue `hget`, about to issue `hdel` holding the
fetched record, or returned. -/
inductive RemovePC where
  | toRead
  | toDelete (got : Entry)
  | finished (ret : Option Entry)
deriving DecidableEq, Repr

/-- One atomic store command of `remove_from_waiting_room` for
`socket_id` in `meeting_id`: the `hget` (moving to `toDelete` or
returning `none`) or the `hdel` (returning the record read earlier). -/
def removeStep (meeting_id socket_id : String) (st : RedisState)
    (pc : RemovePC) : RedisState × RemovePC :=
  match pc with
  | .toRead =>
      match hget st (waitingRoomKey meeting_id) socket_id with
      | some e => (st, .toDelete e)
      | none => (st, .finished none)
  | .toDelete e =>
      (hdel st (waitingRoomKey meeting_id) socket_id, .finished (some e))
  | .finished r => (st, .finished r)

/-- Run two in-flight `remove_from_waiting_room` executions for the same
meeting and connection under a schedule: `true` steps the first
execution, `false` the second. -/
def runTwoRemoves (meeting_id socket_id : String) :
    RedisState → RemovePC → RemovePC → List Bool →
    RedisState × RemovePC × RemovePC
  | st, pa, pb, [] => (st, pa, pb)
  | st, pa, pb, true :: rest =>
      runTwoRemoves meeting_id socket_id
        (removeStep meeting_id socket_id st pa).1
        (removeStep meeting_id socket_id st pa).2 pb rest
  | st, pa, pb, false :: rest =>
      runTwoRemoves meeting_id socket_id
        (removeStep meeting_id socket_id st pb).1 pa
        (removeStep meeting_id socket_id st pb).2 rest

/-- The claim's atomicity property, following the spec's words: the read
and the delete of removeEntry are one atomic unit, so no concurrently
executing operation can observe or remove the entry between the read and
the delete; in particular two concurrent removeEntry executions for the
same pending entry can never both return the entry. -/
def removeEntry_atomic_claim : Prop :=
  ∀ (st : RedisState) (m c : String) (e : Entry),
    hget st (waitingRoomKey m) c = some e →
    ∀ sched : List Bool,
      ¬((runTwoRemoves m c st .toRead .toRead sched).2.1
          = RemovePC.finished (some e)
        ∧ (runTwoRemoves m c st .toRead .toRead sched).2.2
          = RemovePC.finished (some e))

/-- C8 counterexample: `remove_from_waiting_room` is not atomic.  On a
store holding the single entry c1 of meeting m1, the schedule
read-A, read-B, delete-A, delete-B makes both concurrent removeEntry
executions observe and return the entry: execution B observes it between
execution A's read and delete. -/
theorem C8_counterexample : ¬ removeEntry_atomic_claim := by
  intro h
  exact h ⟨[("waiting_room:m1", [("c1", ⟨"c1", "p1", "Alice", "5"⟩)])], []⟩
    "m1" "c1" ⟨"c1", "p1", "Alice", "5"⟩ (by decide)
    [true, false, true, false] ⟨by decide, by decide⟩

/-- C8 amended: removeEntry issues the read and the delete as two
separate store commands; run without interleaving it returns the entry
if it existed (deleting it) and none otherwise, but it is not atomic: a
concurrently executing remove can observe and remove the entry between
the read and the delete, as the concrete schedule in the last conjunct
shows. -/
theorem C8_removeEntry_two_step
    (st : RedisState) (m c : String) :
    (runTwoRemoves m c st .toRead (.finished none) [true, true]).1
        = (remove_from_waiting_room st m c).1
    ∧ (runTwoRemoves m c st .toRead (.finished none) [true, true]).2.1
        = RemovePC.finished (remove_from_waiting_room st m c).2
    ∧ (∀ e, hget st (waitingRoomKey m) c = some e →
        remove_from_waiting_room st m c = (hdel st (waitingRoomKey m) c, some e)
        ∧ hget (remove_from_waiting_room st m c).1 (waitingRoomKey m) c = none)
    ∧ (hget st (waitingRoomKey m) c = none →
        remove_from_waiting_room st m c = (st, none))
    ∧ ((runTwoRemoves "m1" "c1"
          ⟨[("waiting_room:m1", [("c1", ⟨"c1", "p1", "Alice", "5"⟩)])], []⟩
          .toRead .toRead [true, false, true, false]).2.1
        = RemovePC.finished (some ⟨"c1", "p1", "Alice", "5"⟩)
      ∧ (runTwoRemoves "m1" "c1"
          ⟨[("waiting_room:m1", [("c1", ⟨"c1", "p1", "Alice", "5"⟩)])], []⟩
          .toRead .toRead [true, false, true, false]).2.2
        = RemovePC.finished (some ⟨"c1", "p1", "Alice", "5"⟩)) := by
  refine ⟨?_, ?_, ?_, ?_, by decide, by decide⟩
  · cases hE : hget st (waitingRoomKey m) c with
    | none => simp [runTwoRemoves, removeStep, remove_from_waiting_room, hE]
    | some e => simp [runTwoRemoves, removeStep, remove_from_waiting_room, hE]
  · cases hE : hget st (waitingRoomKey m) c with
    | none => simp [runTwoRemoves, removeStep, remove_from_waiting_room, hE]
    | some e => simp [runTwoRemoves, removeStep, remove_from_waiting_room, hE]
  · intro e hE
    refine ⟨by simp [remove_from_waiting_room, hE], ?_⟩
    simp [remove_from_waiting_room, hE, hget_hdel_self]
  · intro hE
    simp [remove_from_waiting_room, hE]

/-! ### Witnesses -/

/-- Witness for C1 at a concrete input: joining meeting m1 from
connection c1 on an empty store leaves exactly one entry for c1, and a
second join-request from c1 is acknowledged already-waiting without
changing the store. -/
theorem C1_waiting_room_entry_uniqueness_witness :
    countConn (get_waiting_room_participants
      (join_request "c1" (some "m1") (some "p1") (some "Alice") false false 5 7
        RedisState.empty).1 "m1") "c1" = 1
    ∧ join_request "c1" (some "m1") (some "p2") (some "Bob") false false 8 9
        (join_request "c1" (some "m1") (some "p1") (some "Alice") false false 5 7
          RedisState.empty).1
      = ((join_request "c1" (some "m1") (some "p1") (some "Alice") false false 5 7
          RedisState.empty).1,
         [.emit "c1" "join-request-ack" (.joinRequestAck "c1" "already-waiting")]) := by
  have h := C1_waiting_room_entry_uniqueness RedisState.empty "c1" "m1" "p1" "Alice" 5 7
    WF_empty (by decide) (by decide) (by decide)
    (by
      intro p hp
      simp [get_waiting_room_participants, hgetall, RedisState.empty, lookupA] at hp)
  exact ⟨h.2.2.2.1, h.2.2.2.2.1 "p2" "Bob" false false 8 9 (by decide) (by decide)⟩

/-- Witness for C2 at a concrete input: admitting pending connection c1
of meeting m1 removes its entry and emits the three expected events. -/
theorem C2_admit_removes_and_notifies_witness :
    hget (admit_participant "h1" (some "m1") (some "c1")
        ⟨[("waiting_room:m1", [("c1", ⟨"c1", "p1", "Alice", "5"⟩)])], []⟩).1
      (waitingRoomKey "m1") "c1" = none
    ∧ (admit_participant "h1" (some "m1") (some "c1")
        ⟨[("waiting_room:m1", [("c1", ⟨"c1", "p1", "Alice", "5"⟩)])], []⟩).2
      = [.emit "c1" "join-approved" (.joinApproved "c1" "p1"),
         .emit "meeting:m1" "join-approved" (.joinApproved "c1" "p1"),
         .emit "host:m1" "waiting-room-update" (.admitted "c1" "p1" "Alice")] := by
  have h := C2_admit_removes_and_notifies
    ⟨[("waiting_room:m1", [("c1", ⟨"c1", "p1", "Alice", "5"⟩)])], []⟩
    "h1" "m1" "c1" ⟨"c1", "p1", "Alice", "5"⟩
    (by decide) (by decide) (by decide) (by decide)
  exact ⟨h.1, h.2.2.2.1⟩

/-- Witness for C3 at a concrete input: denying pending connection c1 of
meeting m1 removes its entry and emits join-denied, a disconnect and the
host notice, in that order. -/
theorem C3_deny_removes_notifies_disconnects_witness :
    hget (deny_participant "h1" (some "m1") (some "c1")
        ⟨[("waiting_room:m1", [("c1", ⟨"c1", "p1", "Alice", "5"⟩)])], []⟩).1
      (waitingRoomKey "m1") "c1" = none
    ∧ (deny_participant "h1" (some "m1") (some "c1")
        ⟨[("waiting_room:m1", [("c1", ⟨"c1", "p1", "Alice", "5"⟩)])], []⟩).2
      = [.emit "c1" "join-denied" (.joinDenied "c1" "p1" "Host denied your request"),
         .disconnect "c1",
         .emit "host:m1" "waiting-room-update" (.denied "c1" "p1" "Alice")] := by
  have h := C3_deny_removes_notifies_disconnects
    ⟨[("waiting_room:m1", [("c1", ⟨"c1", "p1", "Alice", "5"⟩)])], []⟩
    "h1" "m1" "c1" ⟨"c1", "p1", "Alice", "5"⟩
    (by decide) (by decide) (by decide)
  exact ⟨h.1, h.2.2.2.1⟩

/-- Witness for C4 at a concrete input: admitting an absent connection
yields a single error to the host with the store untouched, and denying
the same connection twice yields one real denial then one unknown
notice. -/
theorem C4_not_found_admit_deny_witness :
    admit_participant "h1" (some "m1") (some "c9") RedisState.empty
      = (RedisState.empty,
         [.emit "h1" "error" (.errorMsg "Participant not found in waiting room")])
    ∧ deny_participant "h1" (some "m1") (some "c9") RedisState.empty
      = (RedisState.empty,
         [.emit "host:m1" "waiting-room-update" (.denied "c9" "unknown" "Unknown")])
    ∧ deny_participant "h1" (some "m1") (some "c1")
        (hdel ⟨[("waiting_room:m1", [("c1", ⟨"c1", "p1", "Alice", "5"⟩)])], []⟩
          (waitingRoomKey "m1") "c1")
      = (hdel ⟨[("waiting_room:m1", [("c1", ⟨"c1", "p1", "Alice", "5"⟩)])], []⟩
          (waitingRoomKey "m1") "c1",
         [.emit "host:m1" "waiting-room-update" (.denied "c1" "unknown" "Unknown")]) := by
  have h := C4_not_found_admit_deny "m1" "c9" "h1" (by decide) (by decide)
  have h2 := C4_not_found_admit_deny "m1" "c1" "h1" (by decide) (by decide)
  exact ⟨(h.1 RedisState.empty (by decide)).1,
    (h.1 RedisState.empty (by decide)).2,
    (h2.2 ⟨[("waiting_room:m1", [("c1", ⟨"c1", "p1", "Alice", "5"⟩)])], []⟩
      ⟨"c1", "p1", "Alice", "5"⟩ (by decide)).2⟩

/-- Witness for C5 at a concrete input: host-join on meeting m1 with one
pending entry joins both rooms and snapshots exactly that entry. -/
theorem C5_host_join_snapshot_witness :
    host_join "h1" (some "m1")
        ⟨[("waiting_room:m1", [("c1", ⟨"c1", "p1", "Alice", "5"⟩)])], []⟩
      = (⟨[("waiting_room:m1", [("c1", ⟨"c1", "p1", "Alice", "5"⟩)])], []⟩,
         [.enterRoom "h1" "host:m1",
          .enterRoom "h1" "meeting:m1",
          .emit "h1" "waiting-room-snapshot"
            (.snapshot [⟨"c1", "p1", "Alice", "5"⟩])]) :=
  (C5_host_join_snapshot
    ⟨[("waiting_room:m1", [("c1", ⟨"c1", "p1", "Alice", "5"⟩)])], []⟩
    "h1" "m1" (by decide)).1

/-- Witness for C6 at a concrete input: each handler with an entirely
missing payload emits exactly one error to the sender and nothing
else. -/
theorem C6_missing_field_single_error_witness :
    join_request "c1" none none none false false 0 0 RedisState.empty
      = (RedisState.empty, [.emit "c1" "error" (.errorMsg "Missing required fields")])
    ∧ host_join "c1" none RedisState.empty
      = (RedisState.empty, [.emit "c1" "error" (.errorMsg "Meeting ID required")])
    ∧ admit_participant "c1" none none RedisState.empty
      = (RedisState.empty,
         [.emit "c1" "error" (.errorMsg "Meeting ID and socket ID required")])
    ∧ deny_participant "c1" none none RedisState.empty
      = (RedisState.empty,
         [.emit "c1" "error" (.errorMsg "Meeting ID and socket ID required")]) := by
  have h := C6_missing_field_single_error "c1" none none none none false false 0 0
    RedisState.empty
  exact ⟨h.1 (by decide), h.2.1 (by decide), h.2.2.1 (by decide), h.2.2.2 (by decide)⟩

/-- Witness for the amended C7 at a concrete input: with clock readings
5 then 7, the stored entry carries "5", the later host-join snapshot
carries the stored "5", and the new-request broadcast carries 7. -/
theorem C7_requestedAt_amended_witness :
    hget (join_request "c1" (some "m1") (some "p1") (some "Alice") false false 5 7
        RedisState.empty).1 (waitingRoomKey "m1") "c1"
      = some ⟨"c1", "p1", "Alice", "5"⟩
    ∧ host_join "h1" (some "m1")
        (join_request "c1" (some "m1") (some "p1") (some "Alice") false false 5 7
          RedisState.empty).1
      = ((join_request "c1" (some "m1") (some "p1") (some "Alice") false false 5 7
          RedisState.empty).1,
         [.enterRoom "h1" "host:m1",
          .enterRoom "h1" "meeting:m1",
          .emit "h1" "waiting-room-snapshot"
            (.snapshot [⟨"c1", "p1", "Alice", "5"⟩])])
    ∧ (join_request "c1" (some "m1") (some "p1") (some "Alice") false false 5 7
        RedisState.empty).2
      = [.enterRoom "c1" "meeting:m1",
         .emit "host:m1" "waiting-room-update" (.newRequest "c1" "p1" "Alice" 7),
         .emit "c1" "join-request-ack" (.joinRequestAck "c1" "waiting")] := by
  have h := C7_requestedAt_amended RedisState.empty "c1" "m1" "p1" "Alice" "h1" 5 7
    WF_empty (by decide) (by decide) (by decide)
    (by
      intro p hp
      simp [get_waiting_room_participants, hgetall, RedisState.empty, lookupA] at hp)
  exact ⟨h.1, h.2.1, h.2.2⟩

/-- Witness for the amended C8 at a concrete input: run alone,
removeEntry returns and deletes the present entry, and returns none on
an empty store. -/
theorem C8_removeEntry_two_step_witness :
    remove_from_waiting_room
        ⟨[("waiting_room:m1", [("c1", ⟨"c1", "p1", "Alice", "5"⟩)])], []⟩ "m1" "c1"
      = (hdel ⟨[("waiting_room:m1", [("c1", ⟨"c1", "p1", "Alice", "5"⟩)])], []⟩
          (waitingRoomKey "m1") "c1", some ⟨"c1", "p1", "Alice", "5"⟩)
    ∧ remove_from_waiting_room RedisState.empty "m1" "c1" = (RedisState.empty, none) := by
  have h := C8_removeEntry_two_step
    ⟨[("waiting_room:m1", [("c1", ⟨"c1", "p1", "Alice", "5"⟩)])], []⟩ "m1" "c1"
  have h2 := C8_removeEntry_two_step RedisState.empty "m1" "c1"
  exact ⟨(h.2.2.1 ⟨"c1", "p1", "Alice", "5"⟩ (by decide)).1, h2.2.2.2.1 (by decide)⟩

/-- Witness for C9 at a concrete input: with the TTL refresh failing,
the join-request handler reports failure to c1 even though c1's entry
was written to the store. -/
theorem C9_insert_not_atomic_on_expire_failure_witness :
    join_request "c1" (some "m1") (some "p1") (some "Alice") false true 5 7
        RedisState.empty
      = (hset RedisState.empty (waitingRoomKey "m1") "c1" ⟨"c1", "p1", "Alice", "5"⟩,
         [.emit "c1" "error" (.errorMsg "Failed to add to waiting room")])
    ∧ hget (join_request "c1" (some "m1") (some "p1") (some "Alice") false true 5 7
        RedisState.empty).1 (waitingRoomKey "m1") "c1"
      = some ⟨"c1", "p1", "Alice", "5"⟩ := by
  have h := C9_insert_not_atomic_on_expire_failure RedisState.empty "c1" "m1" "p1" "Alice"
    5 7 (by decide) (by decide) (by decide) (by decide)
  exact ⟨h.2.2.1, h.2.2.2⟩
